import Mathlib

/-!
Formal model of the risk_assessment repository: the risk score calculator
(src/modules/calculators/risk_calculator.py), the geography times industry
condition tree and the exponential surcharge function (src/fkauto.py), the
multi-dimension aggregation tree (src/modules/calculators/tree_calculator.py),
and the fallback match cascade (src/risk_score_application.py).

Pandas and NumPy float values are modelled by `PFloat`, rational numbers
extended with a quiet nan and two signed infinities; a DataFrame is a row
count together with an association list of named columns; the transcendental
exponential surcharge formula is modelled over the real numbers.
-/

set_option maxHeartbeats 1000000

namespace RiskModel

/-- Lookup in an association list, mirroring Python dict and pandas column
access by name (first binding wins). -/
def alookup {α β : Type} [DecidableEq α] : List (α × β) → α → Option β
  | [], _ => none
  | (k, v) :: rest, nm => if k = nm then some v else alookup rest nm

/-- Update an association list at a key, replacing the first existing binding
in place or appending a fresh one, mirroring Python dict assignment. -/
def aset {α β : Type} [DecidableEq α] : List (α × β) → α → β → List (α × β)
  | [], nm, c => [(nm, c)]
  | (k, v) :: rest, nm, c =>
      if k = nm then (nm, c) :: rest else (k, v) :: aset rest nm c

@[simp] theorem alookup_nil {α β : Type} [DecidableEq α] (nm : α) :
    alookup ([] : List (α × β)) nm = none := rfl

@[simp] theorem alookup_cons {α β : Type} [DecidableEq α] (k : α) (v : β)
    (rest : List (α × β)) (nm : α) :
    alookup ((k, v) :: rest) nm = if k = nm then some v else alookup rest nm := rfl

theorem alookup_aset_self {α β : Type} [DecidableEq α]
    (l : List (α × β)) (nm : α) (c : β) : alookup (aset l nm c) nm = some c := by
  induction l with
  | nil => simp [aset]
  | cons kv rest ih =>
      obtain ⟨k, v⟩ := kv
      by_cases h : k = nm <;> simp [aset, h, ih]

theorem alookup_aset_ne {α β : Type} [DecidableEq α]
    (l : List (α × β)) (nm nm2 : α) (c : β) (h : nm ≠ nm2) :
    alookup (aset l nm c) nm2 = alookup l nm2 := by
  induction l with
  | nil => simp [aset, alookup, h]
  | cons kv rest ih =>
      obtain ⟨k, v⟩ := kv
      by_cases hk : k = nm
      · subst hk
        simp [aset, alookup, h, ih]
      · simp only [aset, if_neg hk, alookup_cons, ih]

/-- A pandas scalar: nan, positive infinity, negative infinity, or a finite
value modelled as a rational number. -/
inductive PFloat where
  | nan : PFloat
  | inf : PFloat
  | ninf : PFloat
  | num (q : ℚ) : PFloat
deriving DecidableEq

namespace PFloat

/-- IEEE addition on extended values. -/
def add : PFloat → PFloat → PFloat
  | nan, _ => nan
  | _, nan => nan
  | inf, ninf => nan
  | ninf, inf => nan
  | inf, _ => inf
  | _, inf => inf
  | ninf, _ => ninf
  | _, ninf => ninf
  | num a, num b => num (a + b)

/-- IEEE negation. -/
def neg : PFloat → PFloat
  | nan => nan
  | inf => ninf
  | ninf => inf
  | num a => num (-a)

/-- IEEE subtraction. -/
def sub (a b : PFloat) : PFloat := add a (neg b)

/-- IEEE multiplication (infinity times zero is nan). -/
def mul : PFloat → PFloat → PFloat
  | nan, _ => nan
  | _, nan => nan
  | inf, inf => inf
  | inf, ninf => ninf
  | ninf, inf => ninf
  | ninf, ninf => inf
  | inf, num b => if 0 < b then inf else if b < 0 then ninf else nan
  | ninf, num b => if 0 < b then ninf else if b < 0 then inf else nan
  | num a, inf => if 0 < a then inf else if a < 0 then ninf else nan
  | num a, ninf => if 0 < a then ninf else if a < 0 then inf else nan
  | num a, num b => num (a * b)

/-- IEEE division as performed by pandas element-wise division: division of a
nonzero finite value by zero gives a signed infinity and zero by zero gives
nan rather than raising. -/
def div : PFloat → PFloat → PFloat
  | nan, _ => nan
  | _, nan => nan
  | inf, inf => nan
  | inf, ninf => nan
  | ninf, inf => nan
  | ninf, ninf => nan
  | inf, num b => if b < 0 then ninf else inf
  | ninf, num b => if b < 0 then inf else ninf
  | num _, inf => num 0
  | num _, ninf => num 0
  | num a, num b =>
      if b = 0 then (if 0 < a then inf else if a < 0 then ninf else nan)
      else num (a / b)

/-- Is the value nan. -/
def isNan : PFloat → Bool
  | nan => true
  | _ => false

/-- Python comparison of a value with a rational constant: nan compares false,
positive infinity is greater than every constant. -/
def gtq (x : PFloat) (c : ℚ) : Bool :=
  match x with
  | inf => true
  | num a => decide (c < a)
  | _ => false

/-- Binary maximum with the order ninf below finite values below inf; applied
only to non-nan operands by `maxCol`. -/
def max2 : PFloat → PFloat → PFloat
  | nan, _ => nan
  | _, nan => nan
  | inf, _ => inf
  | _, inf => inf
  | ninf, b => b
  | a, ninf => a
  | num a, num b => num (if a < b then b else a)

/-- pandas Series.sum with its default skipna behaviour: nan entries are
skipped, remaining entries are accumulated with IEEE addition starting at 0
(so an empty column sums to 0). -/
def sumCol (l : List PFloat) : PFloat :=
  l.foldl (fun acc x => match x with | nan => acc | y => add acc y) (num 0)

/-- pandas Series.max with its default skipna behaviour: the maximum over the
non-nan entries, nan when no entry remains. -/
def maxCol (l : List PFloat) : PFloat :=
  match l.filter (fun x => !(isNan x)) with
  | [] => nan
  | x :: xs => xs.foldl max2 x

end PFloat

/-- A pandas expression value: either a scalar (a Python number or the default
argument of DataFrame.get) or a Series column; binary operations broadcast a
scalar over a column exactly as pandas does. -/
inductive Ser where
  | scl (v : PFloat)
  | col (c : List PFloat)
deriving DecidableEq

/-- Lift a scalar binary operation to series with pandas broadcasting. -/
def serLift (f : PFloat → PFloat → PFloat) : Ser → Ser → Ser
  | .scl a, .scl b => .scl (f a b)
  | .scl a, .col c => .col (c.map (fun x => f a x))
  | .col c, .scl b => .col (c.map (fun x => f x b))
  | .col a, .col b => .col (List.zipWith f a b)

/-- Series addition. -/
def addS : Ser → Ser → Ser := serLift PFloat.add

/-- Series subtraction. -/
def subS : Ser → Ser → Ser := serLift PFloat.sub

/-- Series multiplication. -/
def mulS : Ser → Ser → Ser := serLift PFloat.mul

/-- A DataFrame: a row count and named columns in order. -/
structure DF where
  n : ℕ
  cols : List (String × List PFloat)

namespace DF

/-- Column access, none when the column is absent. -/
def getCol? (df : DF) (nm : String) : Option (List PFloat) := alookup df.cols nm

/-- Broadcast a series to a concrete column of the frame length, as pandas
does when a scalar is assigned to a DataFrame column. -/
def materialize (n : ℕ) : Ser → List PFloat
  | .scl v => List.replicate n v
  | .col c => c

/-- Column assignment. -/
def set (df : DF) (nm : String) (s : Ser) : DF :=
  ⟨df.n, aset df.cols nm (materialize df.n s)⟩

/-- DataFrame.get with a scalar default, as used throughout
calculate_scores. -/
def get (df : DF) (nm : String) (d : PFloat) : Ser :=
  match df.getCol? nm with
  | some c => .col c
  | none => .scl d

end DF

namespace RiskCalc

open PFloat

/-- Line 74 to 75 of risk_calculator.py: claim_rate is the cumulative claim
amount divided by the earned premium, computed only when both columns
exist. -/
def step_claim_rate (df : DF) : DF :=
  match df.getCol? "累计赔付金额", df.getCol? "已赚保费" with
  | some a, some b => df.set "claim_rate" (.col (List.zipWith PFloat.div a b))
  | _, _ => df

/-- Line 78 to 79: incident_rate is the number of reported incidents divided
by the number of insured persons. -/
def step_incident_rate (df : DF) : DF :=
  match df.getCol? "报案数量", df.getCol? "最终承保人数" with
  | some a, some b => df.set "incident_rate" (.col (List.zipWith PFloat.div a b))
  | _, _ => df

/-- Line 82 to 83: avg_claim_per_person is the cumulative claim amount divided
by the number of insured persons. -/
def step_avg_claim (df : DF) : DF :=
  match df.getCol? "累计赔付金额", df.getCol? "最终承保人数" with
  | some a, some b => df.set "avg_claim_per_person" (.col (List.zipWith PFloat.div a b))
  | _, _ => df

/-- Line 86 to 91: premium_share is each premium divided by the batch total
when that total is positive, and the scalar 0 otherwise. -/
def step_premium_share (df : DF) : DF :=
  match df.getCol? "已赚保费" with
  | some p =>
      if PFloat.gtq (sumCol p) 0 then
        df.set "premium_share" (.col (p.map (fun x => PFloat.div x (sumCol p))))
      else df.set "premium_share" (.scl (num 0))
  | none => df

/-- Line 95 to 101: avg_claim_norm is avg_claim_per_person divided by its
batch maximum when that maximum is positive, and the scalar 0.0 otherwise. -/
def step_avg_norm (df : DF) : DF :=
  match df.getCol? "avg_claim_per_person" with
  | some c =>
      if PFloat.gtq (maxCol c) 0 then
        df.set "avg_claim_norm" (.col (c.map (fun x => PFloat.div x (maxCol c))))
      else df.set "avg_claim_norm" (.scl (num 0))
  | none => df

/-- Line 104: premium_share_norm is assigned DataFrame.get of premium_share
with scalar default 1, so a frame without a premium_share column receives a
column of ones. -/
def step_share_norm (df : DF) : DF :=
  df.set "premium_share_norm" (df.get "premium_share" (num 1))

/-- Lines 74 to 104 of calculate_scores: the derived indicator columns, in
program order. -/
def derive (df : DF) : DF :=
  step_share_norm (step_avg_norm (step_premium_share
    (step_avg_claim (step_incident_rate (step_claim_rate df)))))

/-- Lines 109 to 114: the weighted sum of the four indicators, each read back
with DataFrame.get and a scalar default (0 for three of them, 1 for
premium_share_norm). -/
def weightedSum (a b g d : ℚ) (df : DF) : Ser :=
  addS (addS (addS (mulS (.scl (num a)) (df.get "claim_rate" (num 0)))
                   (mulS (.scl (num b)) (df.get "premium_share_norm" (num 1))))
             (mulS (.scl (num g)) (df.get "incident_rate" (num 0))))
       (mulS (.scl (num d)) (df.get "avg_claim_norm" (num 0)))

/-- Line 117: the raw risk score column, 100 minus 100 times the weighted sum,
before nan handling, clipping and rounding. -/
def preScores (a b g d : ℚ) (data : DF) : List PFloat :=
  DF.materialize (derive data).n
    (subS (.scl (num 100)) (mulS (weightedSum a b g d (derive data)) (.scl (num 100))))

/-- Line 120: fillna with the neutral midpoint 50. -/
def fillna50 : PFloat → PFloat
  | .nan => num 50
  | x => x

/-- Line 121: replace both infinities by 50. -/
def replaceInf50 : PFloat → PFloat
  | .inf => num 50
  | .ninf => num 50
  | x => x

/-- Line 124: clip to the interval 0 to 100. -/
def clip0100 : PFloat → PFloat
  | .num q => num (if q < 0 then 0 else if 100 < q then 100 else q)
  | .inf => num 100
  | .ninf => num 0
  | .nan => nan

/-- NumPy rounding of a rational to the nearest integer, ties to even. -/
def roundHalfEven (q : ℚ) : ℤ :=
  if q - ⌊q⌋ < 1/2 then ⌊q⌋
  else if 1/2 < q - ⌊q⌋ then ⌊q⌋ + 1
  else if ⌊q⌋ % 2 = 0 then ⌊q⌋ else ⌊q⌋ + 1

/-- Line 127: round to the nearest integer and convert to int. -/
def roundInt : PFloat → PFloat
  | .num q => num (roundHalfEven q)
  | x => x

/-- RiskScoreCalculator.calculate_scores of risk_calculator.py, lines 64 to
132, on a copy of the input frame: derive the indicator columns, assemble the
raw score column, then apply the four successive risk_score updates of lines
117 to 127 (fillna, replace infinities, clip, round to int), whose composition
is one map over the raw scores. -/
def calculate_scores (a b g d : ℚ) (data : DF) : DF :=
  (derive data).set "risk_score"
    (.col (((((preScores a b g d data).map fillna50).map replaceInf50).map clip0100).map roundInt))

theorem getCol?_set_self (df : DF) (nm : String) (s : Ser) :
    (df.set nm s).getCol? nm = some (DF.materialize df.n s) :=
  alookup_aset_self df.cols nm (DF.materialize df.n s)

theorem getCol?_set_ne (df : DF) (nm nm2 : String) (s : Ser) (h : nm ≠ nm2) :
    (df.set nm s).getCol? nm2 = df.getCol? nm2 :=
  alookup_aset_ne df.cols nm nm2 (DF.materialize df.n s) h

@[simp] theorem set_n (df : DF) (nm : String) (s : Ser) : (df.set nm s).n = df.n := rfl

theorem getCol?_step_claim_rate (df : DF) (nm : String) (h : nm ≠ "claim_rate") :
    (step_claim_rate df).getCol? nm = df.getCol? nm := by
  unfold step_claim_rate
  cases hA : df.getCol? "累计赔付金额" <;> cases hB : df.getCol? "已赚保费" <;>
    simp [getCol?_set_ne _ _ _ _ (Ne.symm h)]

theorem getCol?_step_incident_rate (df : DF) (nm : String) (h : nm ≠ "incident_rate") :
    (step_incident_rate df).getCol? nm = df.getCol? nm := by
  unfold step_incident_rate
  cases hA : df.getCol? "报案数量" <;> cases hB : df.getCol? "最终承保人数" <;>
    simp [getCol?_set_ne _ _ _ _ (Ne.symm h)]

theorem getCol?_step_avg_claim (df : DF) (nm : String) (h : nm ≠ "avg_claim_per_person") :
    (step_avg_claim df).getCol? nm = df.getCol? nm := by
  unfold step_avg_claim
  cases hA : df.getCol? "累计赔付金额" <;> cases hB : df.getCol? "最终承保人数" <;>
    simp [getCol?_set_ne _ _ _ _ (Ne.symm h)]

theorem getCol?_step_premium_share (df : DF) (nm : String) (h : nm ≠ "premium_share") :
    (step_premium_share df).getCol? nm = df.getCol? nm := by
  unfold step_premium_share
  split
  · split <;> simp [getCol?_set_ne _ _ _ _ (Ne.symm h)]
  · rfl

theorem getCol?_step_avg_norm (df : DF) (nm : String) (h : nm ≠ "avg_claim_norm") :
    (step_avg_norm df).getCol? nm = df.getCol? nm := by
  unfold step_avg_norm
  split
  · split <;> simp [getCol?_set_ne _ _ _ _ (Ne.symm h)]
  · rfl

theorem getCol?_step_share_norm (df : DF) (nm : String) (h : nm ≠ "premium_share_norm") :
    (step_share_norm df).getCol? nm = df.getCol? nm :=
  getCol?_set_ne _ _ _ _ (Ne.symm h)

theorem getCol?_derive (df : DF) (nm : String)
    (h1 : nm ≠ "claim_rate") (h2 : nm ≠ "incident_rate")
    (h3 : nm ≠ "avg_claim_per_person") (h4 : nm ≠ "premium_share")
    (h5 : nm ≠ "avg_claim_norm") (h6 : nm ≠ "premium_share_norm") :
    (derive df).getCol? nm = df.getCol? nm := by
  unfold derive
  rw [getCol?_step_share_norm _ _ h6, getCol?_step_avg_norm _ _ h5,
    getCol?_step_premium_share _ _ h4, getCol?_step_avg_claim _ _ h3,
    getCol?_step_incident_rate _ _ h2, getCol?_step_claim_rate _ _ h1]

theorem roundHalfEven_intCast (z : ℤ) : roundHalfEven (z : ℚ) = z := by
  simp only [roundHalfEven, Int.floor_intCast, sub_self]
  norm_num

theorem roundHalfEven_nonneg (q : ℚ) (h : 0 ≤ q) : 0 ≤ roundHalfEven q := by
  have hf : (0 : ℤ) ≤ ⌊q⌋ := Int.le_floor.mpr (by exact_mod_cast h)
  unfold roundHalfEven
  split_ifs <;> omega

theorem roundHalfEven_le_100 (q : ℚ) (h : q ≤ 100) : roundHalfEven q ≤ 100 := by
  have hf : ⌊q⌋ ≤ 100 := by
    have h1 : ⌊q⌋ ≤ ⌊(100 : ℚ)⌋ := Int.floor_mono h
    have h2 : ⌊(100 : ℚ)⌋ = 100 := by
      rw [show (100 : ℚ) = ((100 : ℤ) : ℚ) by norm_num, Int.floor_intCast]
    omega
  unfold roundHalfEven
  split_ifs with h1 h2 h3
  · exact hf
  · have h4 : (1 : ℚ)/2 < q - ⌊q⌋ := h2
    have h5 : (⌊q⌋ : ℚ) < 100 - 1/2 := by linarith
    have h6 : ⌊q⌋ < 100 := by
      have : (⌊q⌋ : ℚ) < ((100 : ℤ) : ℚ) := by push_cast; linarith
      exact_mod_cast this
    omega
  · exact hf
  · have h4 : ¬ (q - ⌊q⌋ < 1/2) := h1
    have h5 : (⌊q⌋ : ℚ) ≤ q - 1/2 := by push_cast at h4 ⊢; linarith [not_lt.mp h4]
    have h6 : ⌊q⌋ < 100 := by
      have : (⌊q⌋ : ℚ) < ((100 : ℤ) : ℚ) := by push_cast; linarith
      exact_mod_cast this
    omega

/-- Rounding a rational that happens to be an integer. -/
theorem roundHalfEven_num (z : ℤ) (q : ℚ) (h : q = z) : roundHalfEven q = z := by
  rw [h, roundHalfEven_intCast]

/-- Clip and round on an in-range finite value. -/
theorem round_clip_num (q : ℚ) (h0 : ¬ q < 0) (h1 : ¬ 100 < q) :
    roundInt (clip0100 (PFloat.num q)) = PFloat.num (roundHalfEven q) := by
  simp only [clip0100, roundInt]
  rw [if_neg h0, if_neg h1]

/-- The per-record finalization of lines 120 to 127 always yields an integer
between 0 and 100. -/
theorem final_score_bound (x : PFloat) :
    ∃ z : ℤ, roundInt (clip0100 (replaceInf50 (fillna50 x))) = PFloat.num z ∧
      0 ≤ z ∧ z ≤ 100 := by
  have key : ∀ q : ℚ, 0 ≤ q → q ≤ 100 →
      ∃ z : ℤ, roundInt (PFloat.num q) = PFloat.num z ∧ 0 ≤ z ∧ z ≤ 100 := by
    intro q h0 h1
    exact ⟨roundHalfEven q, rfl, roundHalfEven_nonneg q h0, roundHalfEven_le_100 q h1⟩
  cases x with
  | nan =>
      simp only [fillna50, replaceInf50, clip0100]
      split_ifs with h1 h2
      · exact absurd h1 (by norm_num)
      · exact absurd h2 (by norm_num)
      · exact key 50 (by norm_num) (by norm_num)
  | inf =>
      simp only [fillna50, replaceInf50, clip0100]
      split_ifs with h1 h2
      · exact absurd h1 (by norm_num)
      · exact absurd h2 (by norm_num)
      · exact key 50 (by norm_num) (by norm_num)
  | ninf =>
      simp only [fillna50, replaceInf50, clip0100]
      split_ifs with h1 h2
      · exact absurd h1 (by norm_num)
      · exact absurd h2 (by norm_num)
      · exact key 50 (by norm_num) (by norm_num)
  | num q =>
      simp only [fillna50, replaceInf50, clip0100]
      split_ifs with hq0 hq1
      · exact key 0 (by norm_num) (by norm_num)
      · exact key 100 (by norm_num) (by norm_num)
      · exact key q (not_lt.mp hq0) (not_lt.mp hq1)

/-- The risk_score column of the result is exactly the finalized raw score
column. -/
theorem calc_scores_risk_col (a b g d : ℚ) (df : DF) :
    (calculate_scores a b g d df).getCol? "risk_score"
      = some ((preScores a b g d df).map
          (fun x => roundInt (clip0100 (replaceInf50 (fillna50 x))))) := by
  unfold calculate_scores
  rw [getCol?_set_self]
  simp [DF.materialize, List.map_map, Function.comp]

/-- Helper for batches missing the four financial source columns and the five
derived columns: the derivation phase only adds the all-ones
premium_share_norm column. -/
theorem derive_all_missing (df : DF)
    (hPrem : df.getCol? "已赚保费" = none)
    (hClaims : df.getCol? "累计赔付金额" = none)
    (hIns : df.getCol? "最终承保人数" = none)
    (hInc : df.getCol? "报案数量" = none)
    (hCR : df.getCol? "claim_rate" = none)
    (hIR : df.getCol? "incident_rate" = none)
    (hAC : df.getCol? "avg_claim_per_person" = none)
    (hPS : df.getCol? "premium_share" = none)
    (hAN : df.getCol? "avg_claim_norm" = none) :
    derive df = df.set "premium_share_norm" (.scl (num 1)) := by
  have e1 : step_claim_rate df = df := by
    unfold step_claim_rate; rw [hClaims]
  have e2 : step_incident_rate df = df := by
    unfold step_incident_rate; rw [hInc]
  have e3 : step_avg_claim df = df := by
    unfold step_avg_claim; rw [hClaims]
  have e4 : step_premium_share df = df := by
    unfold step_premium_share; rw [hPrem]
  have e5 : step_avg_norm df = df := by
    unfold step_avg_norm; rw [hAC]
  have e6 : step_share_norm df = df.set "premium_share_norm" (.scl (num 1)) := by
    unfold step_share_norm; rw [DF.get, hPS]
  rw [derive, e1, e2, e3, e4, e5, e6]

/-- Helper: with the default weights, a batch carrying none of the four source
columns (and no pre-existing derived columns) gets risk score 80 in every
record, because the premium-share term defaults to 1 and contributes the full
beta weight. -/
theorem calc_scores_all_missing (df : DF)
    (hPrem : df.getCol? "已赚保费" = none)
    (hClaims : df.getCol? "累计赔付金额" = none)
    (hIns : df.getCol? "最终承保人数" = none)
    (hInc : df.getCol? "报案数量" = none)
    (hCR : df.getCol? "claim_rate" = none)
    (hIR : df.getCol? "incident_rate" = none)
    (hAC : df.getCol? "avg_claim_per_person" = none)
    (hPS : df.getCol? "premium_share" = none)
    (hAN : df.getCol? "avg_claim_norm" = none) :
    (calculate_scores (7/10) (1/5) (1/20) (1/20) df).getCol? "risk_score"
      = some (List.replicate df.n (PFloat.num 80)) := by
  have hd := derive_all_missing df hPrem hClaims hIns hInc hCR hIR hAC hPS hAN
  have hget : ∀ nm : String, nm ≠ "premium_share_norm" → nm ≠ "risk_score" →
      (derive df).getCol? nm = df.getCol? nm := by
    intro nm hnm _
    rw [hd]
    exact getCol?_set_ne _ _ _ _ (fun he => hnm he.symm)
  have hws : weightedSum (7/10) (1/5) (1/20) (1/20) (derive df)
      = .col (List.replicate df.n (PFloat.num (1/5))) := by
    unfold weightedSum
    simp only [DF.get]
    rw [hget "claim_rate" (by decide) (by decide), hCR,
      hget "incident_rate" (by decide) (by decide), hIR,
      hget "avg_claim_norm" (by decide) (by decide), hAN,
      hd, getCol?_set_self]
    simp only [DF.materialize, mulS, addS, serLift, PFloat.mul, PFloat.add,
      List.map_replicate]
    norm_num
  have hpre : preScores (7/10) (1/5) (1/20) (1/20) df
      = List.replicate df.n (PFloat.num 80) := by
    unfold preScores
    rw [hws]
    simp only [subS, mulS, serLift, PFloat.mul, PFloat.sub, PFloat.add, PFloat.neg,
      List.map_replicate, DF.materialize]
    norm_num
  rw [calc_scores_risk_col, hpre, List.map_replicate]
  simp only [fillna50, replaceInf50]
  rw [round_clip_num 80 (by norm_num) (by norm_num),
    roundHalfEven_num 80 80 (by norm_num)]
  norm_num

/-- Claim C1 counterexample: a one-record batch with none of the four source
fields gets risk_score 80, not 100: the premium-share term is treated as 1,
not 0, when the earned-premium column is absent. -/
theorem risk_score_missing_premium_counterexample :
    (calculate_scores (7/10) (1/5) (1/20) (1/20) (DF.mk 1 [])).getCol? "risk_score"
        = some [PFloat.num 80] ∧
      [PFloat.num 80] ≠ [PFloat.num 100] := by
  constructor
  · have h := calc_scores_all_missing (DF.mk 1 []) rfl rfl rfl rfl rfl rfl rfl rfl rfl
    simpa using h
  · simp only [ne_eq, List.cons.injEq, and_true, PFloat.num.injEq]
    norm_num

/-- Claim C1 (amended): in calculate_scores with the default weights, input
fields missing from the batch are treated as 0 for the claim-rate, incident
and per-capita terms, but the premium-share term defaults to 1 when the
earned-premium column is absent; hence a batch with all four source fields
absent (and no pre-existing derived columns) has weighted sum beta = 0.2 and
risk_score 80 for every record, not 100. -/
theorem risk_score_all_fields_missing_eq_80 (df : DF)
    (hPrem : df.getCol? "已赚保费" = none)
    (hClaims : df.getCol? "累计赔付金额" = none)
    (hIns : df.getCol? "最终承保人数" = none)
    (hInc : df.getCol? "报案数量" = none)
    (hCR : df.getCol? "claim_rate" = none)
    (hIR : df.getCol? "incident_rate" = none)
    (hAC : df.getCol? "avg_claim_per_person" = none)
    (hPS : df.getCol? "premium_share" = none)
    (hAN : df.getCol? "avg_claim_norm" = none) :
    (calculate_scores (7/10) (1/5) (1/20) (1/20) df).getCol? "risk_score"
      = some (List.replicate df.n (PFloat.num 80)) :=
  calc_scores_all_missing df hPrem hClaims hIns hInc hCR hIR hAC hPS hAN

theorem risk_score_all_fields_missing_eq_80_witness :
    (calculate_scores (7/10) (1/5) (1/20) (1/20)
        (DF.mk 2 [("保额", [PFloat.num 3, PFloat.num 5])])).getCol? "risk_score"
      = some (List.replicate 2 (PFloat.num 80)) :=
  risk_score_all_fields_missing_eq_80
    (DF.mk 2 [("保额", [PFloat.num 3, PFloat.num 5])])
    rfl rfl rfl rfl rfl rfl rfl rfl rfl

/-- Claim C5: whatever the four financial fields hold, after calculate_scores
every risk_score is an integer between 0 and 100; the risk_score column is
exactly the raw score column finalized record-wise, and a raw score of nan or
either infinity finalizes to the neutral midpoint 50. -/
theorem risk_score_bounded_and_integer (a b g d : ℚ) (df : DF) (rs : List PFloat)
    (h : (calculate_scores a b g d df).getCol? "risk_score" = some rs) :
    (∀ x ∈ rs, ∃ z : ℤ, x = PFloat.num z ∧ 0 ≤ z ∧ z ≤ 100) ∧
      rs = (preScores a b g d df).map
        (fun x => roundInt (clip0100 (replaceInf50 (fillna50 x)))) ∧
      (∀ x : PFloat, x = PFloat.nan ∨ x = PFloat.inf ∨ x = PFloat.ninf →
        roundInt (clip0100 (replaceInf50 (fillna50 x))) = PFloat.num 50) := by
  rw [calc_scores_risk_col] at h
  have hrs : rs = (preScores a b g d df).map
      (fun x => roundInt (clip0100 (replaceInf50 (fillna50 x)))) := by
    exact (Option.some.inj h).symm
  refine ⟨?_, hrs, ?_⟩
  · intro x hx
    rw [hrs] at hx
    obtain ⟨y, _, rfl⟩ := List.mem_map.mp hx
    exact final_score_bound y
  · rintro x (rfl | rfl | rfl) <;>
      · simp only [fillna50, replaceInf50]
        rw [round_clip_num 50 (by norm_num) (by norm_num),
          roundHalfEven_num 50 50 (by norm_num)]
        norm_num

theorem risk_score_bounded_and_integer_witness :
    ∃ z : ℤ, PFloat.num 80 = PFloat.num z ∧ 0 ≤ z ∧ z ≤ 100 := by
  have hcol := calc_scores_all_missing (DF.mk 1 []) rfl rfl rfl rfl rfl rfl rfl rfl rfl
  have h := (risk_score_bounded_and_integer (7/10) (1/5) (1/20) (1/20) (DF.mk 1 [])
    (List.replicate 1 (PFloat.num 80)) hcol).1
  exact h (PFloat.num 80) (by simp)

/-- Claim C10 counterexample: a pre-existing risk_score column of the input is
not carried unchanged into the result; calculate_scores overwrites it. -/
theorem calculate_scores_overwrites_risk_score_counterexample :
    (DF.mk 1 [("risk_score", [PFloat.num 0])]).getCol? "risk_score"
        = some [PFloat.num 0] ∧
      (calculate_scores (7/10) (1/5) (1/20) (1/20)
          (DF.mk 1 [("risk_score", [PFloat.num 0])])).getCol? "risk_score"
        = some [PFloat.num 80] ∧
      [PFloat.num 80] ≠ [PFloat.num 0] := by
  refine ⟨rfl, ?_, ?_⟩
  · have h := calc_scores_all_missing (DF.mk 1 [("risk_score", [PFloat.num 0])])
      rfl rfl rfl rfl rfl rfl rfl rfl rfl
    simpa using h
  · simp only [ne_eq, List.cons.injEq, and_true, PFloat.num.injEq]
    norm_num

/-- Claim C10 (amended): calculate_scores works on a copy of its input (the
model is purely functional, mirroring the data.copy() on line 69); every
pre-existing column whose name is not one of the seven derived or overwritten
columns (claim_rate, incident_rate, avg_claim_per_person, premium_share,
avg_claim_norm, premium_share_norm, risk_score) is present unchanged in the
result. -/
theorem calculate_scores_preserves_other_columns (a b g d : ℚ) (df : DF)
    (nm : String) (c : List PFloat)
    (h : ¬ nm ∈ ["claim_rate", "incident_rate", "avg_claim_per_person",
      "premium_share", "avg_claim_norm", "premium_share_norm", "risk_score"])
    (hc : df.getCol? nm = some c) :
    (calculate_scores a b g d df).getCol? nm = some c := by
  simp only [List.mem_cons, List.mem_singleton, not_or] at h
  obtain ⟨h1, h2, h3, h4, h5, h6, h7, _⟩ := h
  unfold calculate_scores
  rw [getCol?_set_ne _ _ _ _ (fun he => h7 he.symm),
    getCol?_derive df nm h1 h2 h3 h4 h5 h6, hc]

theorem calculate_scores_preserves_other_columns_witness :
    (calculate_scores (7/10) (1/5) (1/20) (1/20)
        (DF.mk 1 [("保额", [PFloat.num 3])])).getCol? "保额"
      = some [PFloat.num 3] :=
  calculate_scores_preserves_other_columns (7/10) (1/5) (1/20) (1/20)
    (DF.mk 1 [("保额", [PFloat.num 3])]) "保额" [PFloat.num 3] (by decide) rfl

end RiskCalc

namespace Fkauto

/-- Python str.strip on the character list of a string (fkauto.py uses strip
on province, city and the industry code cells). -/
def pyStrip (s : String) : String :=
  ⟨((s.data.dropWhile Char.isWhitespace).reverse.dropWhile Char.isWhitespace).reverse⟩

/-- The first field of a Python str.split on the bar character: the prefix of
the string before the first bar, the whole string when no bar occurs. -/
def splitHead (s : String) : String :=
  ⟨s.data.takeWhile (fun c => c != '|')⟩

/-- The code extraction applied to industry cells in fkauto.py (lines 116 to
118 and 151 to 153): the stripped part before the bar when the stripped cell
is nonempty, and the empty string otherwise. -/
def extractCode (s : String) : String :=
  if pyStrip s = "" then "" else pyStrip (splitHead s)

/-- fkauto.TreeNode: children keyed by path segment, optional score and
surcharge. -/
inductive CTree where
  | mk (children : List (String × CTree)) (score : Option ℚ) (surcharge : Option ℚ)

/-- The children of a condition tree node. -/
def CTree.children : CTree → List (String × CTree)
  | .mk c _ _ => c

/-- The score of a condition tree node. -/
def CTree.score : CTree → Option ℚ
  | .mk _ s _ => s

/-- The surcharge of a condition tree node. -/
def CTree.surcharge : CTree → Option ℚ
  | .mk _ _ s => s

/-- A fresh TreeNode: empty children, null score and surcharge. -/
def emptyNode : CTree := .mk [] none none

/-- Lines 138 to 146 of fkauto.py: walk and create the nodes along a path,
then set the score and the surcharge of the final node. -/
def insertPath : CTree → List String → ℚ → ℚ → CTree
  | t, [], sc, sur => .mk t.children (some sc) (some sur)
  | t, k :: rest, sc, sur =>
      .mk (aset t.children k
             (insertPath ((alookup t.children k).getD emptyNode) rest sc sur))
        t.score t.surcharge

/-- One data line of build_condition_tree: the tab-separated cells, with the
float score of the last cell already parsed to a rational (numeric parsing is
outside the model). -/
structure DataLine where
  parts : List String
  score : ℚ

/-- Lines 108 to 146 of fkauto.py, one iteration of build_condition_tree:
skip short lines, strip province and city, extract the three industry codes,
skip the line when province or city is empty, truncate the path at the first
empty industry code, and insert the score together with the computed
surcharge at the final node.  The surcharge computation
calculate_nonlinear_surcharge(score, weight) is abstracted as the function
argument f, since the tree logic is independent of it. -/
def insertLine (f : ℚ → ℚ) (t : CTree) (line : DataLine) : CTree :=
  if line.parts.length < 10 then t
  else
    if pyStrip (line.parts.getD 0 "") = "" then t
    else if pyStrip (line.parts.getD 1 "") = "" then t
    else
      insertPath t
        ([pyStrip (line.parts.getD 0 ""), pyStrip (line.parts.getD 1 "")] ++
          ([extractCode (line.parts.getD 2 ""), extractCode (line.parts.getD 3 ""),
            extractCode (line.parts.getD 4 "")].takeWhile (fun c => c ≠ "")))
        line.score (f line.score)

/-- build_condition_tree over a batch of data lines, starting from the empty
root. -/
def build_condition_tree (f : ℚ → ℚ) (lines : List DataLine) : CTree :=
  lines.foldl (insertLine f) emptyNode

/-- Lines 150 to 160 of calculate_surcharge: the query path, province and
city always included, industry codes truncated at the first empty one. -/
def queryPath (province city menlei dalei zhonglei : String) : List String :=
  [pyStrip province, pyStrip city] ++
    ([extractCode menlei, extractCode dalei, extractCode zhonglei].takeWhile
      (fun c => c ≠ ""))

/-- Lines 162 to 172 of calculate_surcharge: walk the tree along the query
path, keeping the surcharge of every visited node that carries one, and stop
at the first missing child. -/
def walkPath : CTree → List String → ℚ → ℚ
  | _, [], best => best
  | t, k :: rest, best =>
      match alookup t.children k with
      | none => best
      | some c => walkPath c rest (c.surcharge.getD best)

/-- fkauto.calculate_surcharge on an explicit tree (the script keeps the root
in a module-level global). -/
def calculate_surcharge (t : CTree) (province city menlei dalei zhonglei : String) : ℚ :=
  walkPath t (queryPath province city menlei dalei zhonglei) 0

/-- The nodes the walk visits: the maximal prefix of the query path that
exists in the tree, as tree nodes in path order. -/
def matchedNodes : CTree → List String → List CTree
  | _, [] => []
  | t, k :: rest =>
      match alookup t.children k with
      | none => []
      | some c => c :: matchedNodes c rest

/-- The specification lookup: the surcharge of the deepest node along the
maximal existing prefix of the query path that carries a surcharge, the
default 0.0 when no such node exists. -/
def deepestSurcharge (t : CTree) (path : List String) : ℚ :=
  (((matchedNodes t path).reverse).findSome? CTree.surcharge).getD 0

/-- The node of the tree at the end of an exact path, when it exists. -/
def nodeAt : CTree → List String → Option CTree
  | t, [] => some t
  | t, k :: rest =>
      match alookup t.children k with
      | none => none
      | some c => nodeAt c rest

theorem findSome?_concat (xs : List CTree) (c : CTree) (b : ℚ) :
    (((xs ++ [c]).findSome? CTree.surcharge).getD b)
      = ((xs.findSome? CTree.surcharge).getD (c.surcharge.getD b)) := by
  induction xs with
  | nil =>
      simp only [List.nil_append, List.findSome?]
      cases c.surcharge <;> simp
  | cons x rest ih =>
      simp only [List.cons_append, List.findSome?]
      cases x.surcharge <;> simp [ih]

theorem walkPath_eq_deepest (path : List String) :
    ∀ (t : CTree) (b : ℚ),
      walkPath t path b
        = (((matchedNodes t path).reverse).findSome? CTree.surcharge).getD b := by
  induction path with
  | nil => intro t b; simp [walkPath, matchedNodes]
  | cons k rest ih =>
      intro t b
      simp only [walkPath, matchedNodes]
      cases hc : alookup t.children k with
      | none => simp
      | some c =>
          simp only [List.reverse_cons]
          rw [ih c (c.surcharge.getD b), findSome?_concat]

/-- Claim C4: for every built condition tree and every query,
calculate_surcharge returns the surcharge of the deepest node along the
maximal existing prefix of the truncated query path that carries a non-null
surcharge, deeper matches overriding shallower ones, and the default 0.0 when
no node on that prefix carries a surcharge. -/
theorem condition_tree_lookup_longest_prefix (t : CTree)
    (province city menlei dalei zhonglei : String) :
    calculate_surcharge t province city menlei dalei zhonglei
      = deepestSurcharge t (queryPath province city menlei dalei zhonglei) :=
  walkPath_eq_deepest (queryPath province city menlei dalei zhonglei) t 0

/-- The sample data line of fkauto.py with path 江苏省, 泰州市, C, C033, C0331
and score 20. -/
def sampleLine : DataLine :=
  ⟨["江苏省", "泰州市", "C|制造业", "C033|金属制品业", "C0331|结构性金属制品制造",
    "0", "19034.4", "0", "14", "0", "0", "0", "3.78563E-05", "0", "20"], 20⟩

/-- The condition tree built from exactly that line, with a surcharge
function putting 0.2 at the inserted leaf. -/
def sampleTree : CTree := build_condition_tree (fun _ => 1/5) [sampleLine]

/-- Claim C2 counterexample: on the tree built from the single sample row,
the query with unknown third-level code C9999 returns 0.0, the root default,
because the intermediate C033 node carries no surcharge; the claim asserts
the result is the surcharge of the C033 node and not the root default. -/
theorem condition_tree_c9999_counterexample :
    calculate_surcharge sampleTree "江苏省" "泰州市" "C" "C033" "C9999" = 0 ∧
      (nodeAt sampleTree ["江苏省", "泰州市", "C", "C033"]).map CTree.surcharge
        = some none := by
  constructor <;> rfl

/-- Claim C2 (amended): on the tree built from the single sample row with
surcharge 0.2 stored at the C0331 leaf, the query with unknown third-level
code C9999 returns the default 0.0: only the explicitly inserted leaf carries
a surcharge, the intermediate C033 node has a null surcharge, so no node on
the matched prefix contributes and the lookup falls back to the root
default. -/
theorem condition_tree_c9999_returns_root_default :
    calculate_surcharge sampleTree "江苏省" "泰州市" "C" "C033" "C9999" = 0 ∧
      (nodeAt sampleTree ["江苏省", "泰州市", "C", "C033", "C0331"]).map CTree.surcharge
        = some (some (1/5)) ∧
      (nodeAt sampleTree ["江苏省", "泰州市", "C", "C033"]).map CTree.surcharge
        = some none := by
  refine ⟨rfl, rfl, rfl⟩

/-- Python round(x, 1): x rounded to one decimal place, modelled with the
mathematical round to the nearest tenth. -/
noncomputable def round1 (x : ℝ) : ℝ := ((round (10 * x) : ℤ) : ℝ) / 10

/-- Lines 80 to 84 of fkauto.py: the base surcharge
1000 * (exp(-0.046 * score) - 0.01), forced to exactly 0 for scores above
99.9. -/
noncomputable def baseSurcharge (score : ℝ) : ℝ :=
  if 999/10 < score then 0
  else 1000 * (Real.exp (-(46/1000) * score) - 1/100)

/-- Lines 90 to 93 of fkauto.py: cap the weighted surcharge at 1000 times the
weight and floor it at 0. -/
noncomputable def clampWeighted (w ws : ℝ) : ℝ :=
  if 1000 * w < ws then 1000 * w else if ws < 0 then 0 else ws

/-- fkauto.calculate_nonlinear_surcharge, lines 52 to 95, with an explicit
weight (the None branch reads the same default from the configuration
file). -/
noncomputable def calculate_nonlinear_surcharge (score weight : ℝ) : ℝ :=
  if 100 ≤ score then 0
  else if score ≤ 0 then 1000 * weight
  else round1 (clampWeighted weight (baseSurcharge score * weight))

/-- The surcharge formula as the specification words it: the boundary
overrides, then min(max(1000 * (exp(-0.046 * score) - 0.01), 0), 1000) times
the weight, rounded to one decimal place, with the base term forced to 0
above 99.9. -/
noncomputable def surcharge_spec_formula (score weight : ℝ) : ℝ :=
  if 100 ≤ score then 0
  else if score ≤ 0 then 1000 * weight
  else round1 (min (max (baseSurcharge score) 0) 1000 * weight)

theorem clampWeighted_eq_minmax (w b : ℝ) (hw : 0 < w) :
    clampWeighted w (b * w) = min (max b 0) 1000 * w := by
  unfold clampWeighted
  by_cases h1 : 1000 * w < b * w
  · have hb : (1000 : ℝ) < b := (mul_lt_mul_right hw).mp h1
    rw [if_pos h1, max_eq_left (by linarith), min_eq_right (by linarith)]
  · by_cases h2 : b * w < 0
    · have hb : b < 0 := by nlinarith
      rw [if_neg h1, if_pos h2, max_eq_right (le_of_lt hb), min_eq_left (by norm_num),
        zero_mul]
    · have hb0 : 0 ≤ b := by nlinarith [not_lt.mp h2]
      have hb1 : b ≤ 1000 := by nlinarith [not_lt.mp h1]
      rw [if_neg h1, if_neg h2, max_eq_left hb0, min_eq_left hb1]

/-- Claim C6: for every score and positive weight the code equals the
specification formula, and the two boundary identities hold: surcharge 0 at
score 100 and the full cap 1000 times the weight at score 0. -/
theorem nonlinear_surcharge_matches_spec_formula (s w : ℝ) (hw : 0 < w) :
    calculate_nonlinear_surcharge s w = surcharge_spec_formula s w ∧
      calculate_nonlinear_surcharge 100 w = 0 ∧
      calculate_nonlinear_surcharge 0 w = 1000 * w := by
  refine ⟨?_, ?_, ?_⟩
  · unfold calculate_nonlinear_surcharge surcharge_spec_formula
    by_cases h1 : 100 ≤ s
    · rw [if_pos h1, if_pos h1]
    · by_cases h2 : s ≤ 0
      · rw [if_neg h1, if_neg h1, if_pos h2, if_pos h2]
      · rw [if_neg h1, if_neg h1, if_neg h2, if_neg h2,
          clampWeighted_eq_minmax w (baseSurcharge s) hw]
  · unfold calculate_nonlinear_surcharge
    rw [if_pos (by norm_num : (100 : ℝ) ≤ 100)]
  · unfold calculate_nonlinear_surcharge
    rw [if_neg (by norm_num : ¬ (100 : ℝ) ≤ 0), if_pos (le_refl (0 : ℝ))]

theorem nonlinear_surcharge_matches_spec_formula_witness :
    calculate_nonlinear_surcharge 50 1 = surcharge_spec_formula 50 1 ∧
      calculate_nonlinear_surcharge 100 1 = 0 ∧
      calculate_nonlinear_surcharge 0 1 = 1000 * 1 :=
  nonlinear_surcharge_matches_spec_formula 50 1 (by norm_num)

theorem exp_23_5_lt_100 : Real.exp (23/5) < 100 := by
  have h1 : Real.exp 1 < 2.7182818286 := Real.exp_one_lt_d9
  have h23 : Real.exp 23 < 10^10 := by
    have he : Real.exp 23 = Real.exp 1 ^ 23 := by
      rw [← Real.exp_nat_mul]; norm_num
    rw [he]
    calc Real.exp 1 ^ 23 ≤ (2.7182818286 : ℝ)^23 :=
          pow_le_pow_left (Real.exp_pos 1).le h1.le 23
      _ < 10^10 := by norm_num
  have h5 : Real.exp (23/5) ^ 5 = Real.exp 23 := by
    rw [← Real.exp_nat_mul]; norm_num
  by_contra hcon
  push_neg at hcon
  have hpow : (100 : ℝ)^5 ≤ Real.exp (23/5) ^ 5 := pow_le_pow_left (by norm_num) hcon 5
  rw [h5] at hpow
  norm_num at hpow
  linarith

theorem base_raw_nonneg (s : ℝ) (hs : s < 100) :
    0 ≤ 1000 * (Real.exp (-(46/1000) * s) - 1/100) := by
  have h1 : Real.exp (-(23/5)) ≤ Real.exp (-(46/1000) * s) :=
    Real.exp_le_exp.mpr (by nlinarith)
  have h2 : (1/100 : ℝ) < Real.exp (-(23/5)) := by
    rw [Real.exp_neg, show (1/100 : ℝ) = (100 : ℝ)⁻¹ by norm_num]
    exact inv_lt_inv_of_lt (Real.exp_pos _) exp_23_5_lt_100
  linarith

theorem baseSurcharge_nonneg (s : ℝ) (hs : s < 100) : 0 ≤ baseSurcharge s := by
  unfold baseSurcharge
  split_ifs
  · exact le_refl 0
  · exact base_raw_nonneg s hs

theorem baseSurcharge_le_990 (s : ℝ) (hs : 0 < s) : baseSurcharge s ≤ 990 := by
  unfold baseSurcharge
  split_ifs
  · norm_num
  · have h1 : Real.exp (-(46/1000) * s) ≤ Real.exp 0 :=
      Real.exp_le_exp.mpr (by nlinarith)
    rw [Real.exp_zero] at h1
    nlinarith

theorem round1_mono (x y : ℝ) (h : x ≤ y) : round1 x ≤ round1 y := by
  unfold round1
  have hr : round (10 * x) ≤ round (10 * y) := by
    rw [round_eq, round_eq]
    exact Int.floor_mono (by linarith)
  have hc : ((round (10 * x) : ℤ) : ℝ) ≤ ((round (10 * y) : ℤ) : ℝ) := by
    exact_mod_cast hr
  linarith

theorem round1_nonneg (x : ℝ) (h : 0 ≤ x) : 0 ≤ round1 x := by
  unfold round1
  have hr : (0 : ℤ) ≤ round (10 * x) := by
    rw [round_eq]
    exact Int.le_floor.mpr (by push_cast; linarith)
  have hc : ((0 : ℤ) : ℝ) ≤ ((round (10 * x) : ℤ) : ℝ) := by
    exact_mod_cast hr
  push_cast at hc
  linarith

theorem round1_le_add (x : ℝ) : round1 x ≤ x + 1/20 := by
  unfold round1
  rw [round_eq]
  have := Int.floor_le (10 * x + 1/2)
  linarith

theorem clampWeighted_mono (w : ℝ) (hw : 0 ≤ w) (x y : ℝ) (h : x ≤ y) :
    clampWeighted w x ≤ clampWeighted w y := by
  unfold clampWeighted
  split_ifs <;> linarith

theorem clampWeighted_nonneg (w x : ℝ) (hw : 0 ≤ w) : 0 ≤ clampWeighted w x := by
  unfold clampWeighted
  split_ifs with h1 h2
  · linarith
  · exact le_refl 0
  · exact not_lt.mp h2

theorem clampWeighted_le_bound (w x b : ℝ) (hw : 0 ≤ w) (hx : x ≤ b)
    (hb : b ≤ 1000 * w) (hb0 : 0 ≤ b) : clampWeighted w x ≤ b := by
  unfold clampWeighted
  split_ifs <;> linarith

theorem surcharge_nonneg (s w : ℝ) (hw : 0 < w) :
    0 ≤ calculate_nonlinear_surcharge s w := by
  unfold calculate_nonlinear_surcharge
  split_ifs
  · exact le_refl 0
  · nlinarith
  · exact round1_nonneg _ (clampWeighted_nonneg _ _ hw.le)

/-- Claim C7 counterexample: for the positive weight 0.00046 the surcharge is
not monotonically non-increasing across the score 0 boundary: the surcharge
at score 0 is 0.46 while the surcharge at score 0.1 rounds up to 0.5. -/
theorem nonlinear_surcharge_not_monotone_counterexample :
    (0 : ℝ) ≤ 1/10 ∧ (0 : ℝ) < 46/100000 ∧
      calculate_nonlinear_surcharge 0 (46/100000)
        < calculate_nonlinear_surcharge (1/10) (46/100000) := by
  refine ⟨by norm_num, by norm_num, ?_⟩
  have hexp_lb : (9954/10000 : ℝ) ≤ Real.exp (-(46/1000) * (1/10)) := by
    have h := Real.add_one_le_exp (-(46/1000) * (1/10) : ℝ)
    nlinarith
  have hexp_ub : Real.exp (-(46/1000) * (1/10)) ≤ 1 := by
    rw [show (1 : ℝ) = Real.exp 0 from Real.exp_zero.symm]
    exact Real.exp_le_exp.mpr (by norm_num)
  have hf0 : calculate_nonlinear_surcharge 0 (46/100000) = 46/100 := by
    unfold calculate_nonlinear_surcharge
    rw [if_neg (by norm_num : ¬ (100 : ℝ) ≤ 0), if_pos (le_refl (0 : ℝ))]
    norm_num
  have hbase : baseSurcharge (1/10)
      = 1000 * (Real.exp (-(46/1000) * (1/10)) - 1/100) := by
    unfold baseSurcharge
    rw [if_neg (by norm_num)]
  have h1 : ¬ (1000 * (46/100000 : ℝ)
      < 1000 * (Real.exp (-(46/1000) * (1/10)) - 1/100) * (46/100000)) := by
    nlinarith
  have h2 : ¬ (1000 * (Real.exp (-(46/1000) * (1/10)) - 1/100) * (46/100000 : ℝ) < 0) := by
    nlinarith
  have hround : round (10 * (1000 * (Real.exp (-(46/1000) * (1/10)) - 1/100)
      * (46/100000 : ℝ))) = 5 := by
    rw [round_eq]
    apply Int.floor_eq_iff.mpr
    constructor
    · push_cast
      nlinarith
    · push_cast
      nlinarith
  have hf1 : calculate_nonlinear_surcharge (1/10) (46/100000) = 1/2 := by
    unfold calculate_nonlinear_surcharge
    rw [if_neg (by norm_num), if_neg (by norm_num), hbase]
    unfold clampWeighted
    rw [if_neg h1, if_neg h2]
    unfold round1
    rw [hround]
    norm_num
  rw [hf0, hf1]
  norm_num

/-- Claim C7 (amended): for every weight at least 0.005 (in particular the
configured defaults 0.5 and 1.0) calculate_nonlinear_surcharge is
monotonically non-increasing in score, including across the boundary
overrides at scores 0, 99.9 and 100 and after the one-decimal rounding; for
smaller positive weights the rounding can raise a near-zero score above the
score 0 value. -/
theorem nonlinear_surcharge_monotone_for_weight_ge (w : ℝ) (hw : 1/200 ≤ w)
    (s1 s2 : ℝ) (h12 : s1 ≤ s2) :
    calculate_nonlinear_surcharge s2 w ≤ calculate_nonlinear_surcharge s1 w := by
  have hw0 : (0 : ℝ) < w := lt_of_lt_of_le (by norm_num) hw
  by_cases h2 : 100 ≤ s2
  · have hs2 : calculate_nonlinear_surcharge s2 w = 0 := by
      unfold calculate_nonlinear_surcharge
      rw [if_pos h2]
    rw [hs2]
    exact surcharge_nonneg s1 w hw0
  · by_cases h2b : s2 ≤ 0
    · have h1b : s1 ≤ 0 := le_trans h12 h2b
      unfold calculate_nonlinear_surcharge
      rw [if_neg h2, if_pos h2b, if_neg (by linarith : ¬ (100 : ℝ) ≤ s1), if_pos h1b]
    · by_cases h1b : s1 ≤ 0
      · have hf1 : calculate_nonlinear_surcharge s1 w = 1000 * w := by
          unfold calculate_nonlinear_surcharge
          rw [if_neg (by linarith : ¬ (100 : ℝ) ≤ s1), if_pos h1b]
        rw [hf1]
        unfold calculate_nonlinear_surcharge
        rw [if_neg h2, if_neg h2b]
        have hb990 : baseSurcharge s2 ≤ 990 := baseSurcharge_le_990 s2 (not_le.mp h2b)
        have hb0 : 0 ≤ baseSurcharge s2 := baseSurcharge_nonneg s2 (not_le.mp h2)
        have hcl : clampWeighted w (baseSurcharge s2 * w) ≤ 990 * w :=
          clampWeighted_le_bound w _ (990 * w) hw0.le (by nlinarith) (by nlinarith)
            (by nlinarith)
        have := round1_le_add (clampWeighted w (baseSurcharge s2 * w))
        linarith
      · unfold calculate_nonlinear_surcharge
        rw [if_neg h2, if_neg h2b, if_neg (by linarith : ¬ (100 : ℝ) ≤ s1), if_neg h1b]
        have hbase : baseSurcharge s2 ≤ baseSurcharge s1 := by
          unfold baseSurcharge
          split_ifs with ha hb hb
          · exact le_refl 0
          · exact base_raw_nonneg s1 (by linarith)
          · linarith
          · have hmono : Real.exp (-(46/1000) * s2) ≤ Real.exp (-(46/1000) * s1) :=
              Real.exp_le_exp.mpr (by nlinarith)
            nlinarith
        exact round1_mono _ _
          (clampWeighted_mono w hw0.le _ _ (by nlinarith))

theorem nonlinear_surcharge_monotone_for_weight_ge_witness :
    calculate_nonlinear_surcharge 100 1 ≤ calculate_nonlinear_surcharge 0 1 :=
  nonlinear_surcharge_monotone_for_weight_ge 1 (by norm_num) 0 100 (by norm_num)

end Fkauto

namespace TreeCalc

/-- A cell of a DataFrame row as seen by tree_calculator.py: missing (NaN or
None, the pandas notna test fails), a string dimension value, or a numeric
value. -/
inductive Cell where
  | null : Cell
  | str (s : String) : Cell
  | qnum (q : ℚ) : Cell
deriving DecidableEq

/-- A row dictionary: column name to cell. -/
def Row : Type := List (String × Cell)

instance : DecidableEq Row := by
  unfold Row
  infer_instance

mutual
/-- tree_calculator.TreeNode: dimension name, dimension value, score,
surcharge, raw data rows and children keyed by dimension value. -/
inductive ATree where
  | mk (name : Option String) (value : Option Cell) (score : Option ℚ)
      (surcharge : Option ℚ) (data : List Row) (children : AForest)
/-- The children dictionary of a TreeNode, keyed by cell value, in insertion
order. -/
inductive AForest where
  | nil : AForest
  | cons (key : Cell) (t : ATree) (rest : AForest) : AForest
end

/-- The name of a node. -/
def ATree.name : ATree → Option String
  | .mk n _ _ _ _ _ => n

/-- The value of a node. -/
def ATree.value : ATree → Option Cell
  | .mk _ v _ _ _ _ => v

/-- The score of a node. -/
def ATree.score : ATree → Option ℚ
  | .mk _ _ s _ _ _ => s

/-- The surcharge of a node. -/
def ATree.surcharge : ATree → Option ℚ
  | .mk _ _ _ s _ _ => s

/-- The raw data rows stored at a node. -/
def ATree.data : ATree → List Row
  | .mk _ _ _ _ d _ => d

/-- The children of a node. -/
def ATree.children : ATree → AForest
  | .mk _ _ _ _ _ c => c

/-- Dictionary lookup among the children. -/
def AForest.lookup : AForest → Cell → Option ATree
  | .nil, _ => none
  | .cons k t rest, v => if k = v then some t else AForest.lookup rest v

/-- Dictionary update among the children: replace the binding in place or
append a new one. -/
def AForest.set : AForest → Cell → ATree → AForest
  | .nil, v, t => .cons v t .nil
  | .cons k u rest, v, t =>
      if k = v then .cons v t rest else .cons k u (AForest.set rest v t)

/-- Python truthiness of the children dictionary. -/
def AForest.isEmpty : AForest → Bool
  | .nil => true
  | .cons _ _ _ => false

/-- The children as an association list. -/
def AForest.toList : AForest → List (Cell × ATree)
  | .nil => []
  | .cons k t rest => (k, t) :: rest.toList

/-- Line 88 of tree_calculator.py: the dimension value of a row when the
dimension is a column of the row and its value passes pandas notna. -/
def getVal (r : Row) (d : String) : Option Cell :=
  match alookup r d with
  | some c => if c = Cell.null then none else some c
  | none => none

/-- Lines 82 to 103 of build_tree for a single record: walk the dimensions in
order, descending and creating a child for each dimension whose value is
present and non-null (a missing dimension is skipped and the walk continues
with the later dimensions), then append the record to the final node when
that node currently has no children and at least one dimension matched. -/
def insertRow : ATree → Row → List String → Bool → ATree
  | t, r, [], nonempty =>
      if t.children.isEmpty && nonempty then
        .mk t.name t.value t.score t.surcharge (t.data ++ [r]) t.children
      else t
  | t, r, d :: rest, nonempty =>
      match getVal r d with
      | none => insertRow t r rest nonempty
      | some v =>
          .mk t.name t.value t.score t.surcharge t.data
            (t.children.set v
              (insertRow ((t.children.lookup v).getD
                  (.mk (some d) (some v) none none [] .nil)) r rest true))

/-- The fresh root node of build_tree. -/
def rootNode : ATree := .mk (some "root") none none none [] .nil

/-- TreeAnalysisCalculator.build_tree, lines 64 to 108. -/
def build_tree (data : List Row) (dims : List String) : ATree :=
  data.foldl (fun t r => insertRow t r dims false) rootNode

/-- The record path the specification describes: the values of the dimensions
that are present and non-null in the row, with the dimension names, in
order. -/
def pathOf (r : Row) (dims : List String) : List (String × Cell) :=
  dims.filterMap (fun d => (getVal r d).map (fun v => (d, v)))

/-- Insertion along an explicit path of dimension name and value pairs. -/
def insertAlong : ATree → Row → List (String × Cell) → Bool → ATree
  | t, r, [], nonempty =>
      if t.children.isEmpty && nonempty then
        .mk t.name t.value t.score t.surcharge (t.data ++ [r]) t.children
      else t
  | t, r, (d, v) :: rest, _ =>
      .mk t.name t.value t.score t.surcharge t.data
        (t.children.set v
          (insertAlong ((t.children.lookup v).getD
              (.mk (some d) (some v) none none [] .nil)) r rest true))

/-- The row of the C3 counterexample: dimension A missing, dimension B
carrying the value b. -/
def c3row : Row := [("B", Cell.str "b")]

/-- Claim C3 counterexample: a record with a missing earlier dimension but a
value for a later dimension does contribute a node keyed by that later value:
with dimensions A then B and a record carrying only B = b, the built tree has
a root child keyed b holding the record, while the claim says the insertion
path stops before the first missing dimension and no node keyed by later
values exists. -/
theorem build_tree_skips_missing_dimension_counterexample :
    ((build_tree [c3row] ["A", "B"]).children.lookup (Cell.str "b")).map ATree.data
      = some [c3row] := by
  decide

/-- Claim C3 (amended): the insertion path of a record does not stop at the
first missing dimension; it is exactly the sequence of dimension values
present and non-null in the record, in dimension order, skipping missing
dimensions and continuing with later ones; the record is appended at the end
of that path only when the final node is currently childless and the path is
nonempty. -/
theorem build_tree_path_skips_missing_dimensions (dims : List String) :
    ∀ (t : ATree) (r : Row) (b : Bool),
      insertRow t r dims b = insertAlong t r (pathOf r dims) b := by
  induction dims with
  | nil => intro t r b; rfl
  | cons d rest ih =>
      intro t r b
      simp only [insertRow, pathOf, List.filterMap_cons]
      cases hv : getVal r d with
      | none => simpa [pathOf] using ih t r b
      | some v =>
          simp only [Option.map_some, insertAlong]
          rw [ih]
          rfl

/-- Numeric value of a cell; the score extraction below applies it only to
cells that hold numbers. -/
def cellQ : Cell → ℚ
  | .qnum q => q
  | .str _ => 0
  | .null => 0

/-- np.mean of a list of rationals. -/
def qmean (l : List ℚ) : ℚ := l.sum / l.length

mutual
/-- calculate_node_score of tree_calculator.py, lines 127 to 148, acting on a
node: returns the updated node together with the returned score.  A childless
node with data averages the score field over the rows that carry it (when any
does); a node with children averages the non-null returned scores of its
children (when any); a childless node without data returns None and is left
unchanged. -/
def calcNode (sf : String) : ATree → ATree × Option ℚ
  | .mk n v s sur d c =>
      if c.isEmpty then
        if d.isEmpty then (.mk n v s sur d c, none)
        else
          if (d.filterMap (fun r => (alookup r sf).map cellQ)).isEmpty then
            (.mk n v s sur d c, s)
          else
            (.mk n v (some (qmean (d.filterMap (fun r => (alookup r sf).map cellQ))))
              sur d c,
             some (qmean (d.filterMap (fun r => (alookup r sf).map cellQ))))
      else
        if (calcForest sf c).2.isEmpty then
          (.mk n v s sur d (calcForest sf c).1, s)
        else
          (.mk n v (some (qmean (calcForest sf c).2)) sur d (calcForest sf c).1,
           some (qmean (calcForest sf c).2))
/-- The loop over node.children.values() in calculate_node_score: the updated
children together with the list of non-None returned child scores, in
order. -/
def calcForest (sf : String) : AForest → AForest × List ℚ
  | .nil => (.nil, [])
  | .cons k t rest =>
      (.cons k (calcNode sf t).1 (calcForest sf rest).1,
        match (calcNode sf t).2 with
        | some q => q :: (calcForest sf rest).2
        | none => (calcForest sf rest).2)
end

/-- TreeAnalysisCalculator.calculate_tree_scores on an explicit root. -/
def calculate_tree_scores (sf : String) (t : ATree) : ATree := (calcNode sf t).1

mutual
/-- Every score in the tree is null, as after build_tree. -/
def freshT : ATree → Bool
  | .mk _ _ s _ _ c => s.isNone && freshF c
/-- Every score in the forest is null. -/
def freshF : AForest → Bool
  | .nil => true
  | .cons _ t rest => freshT t && freshF rest
end

/-- Node occurrence in a tree: the tree itself or a node of a child
subtree. -/
inductive Occurs : ATree → ATree → Prop where
  | refl (t : ATree) : Occurs t t
  | step {n : ATree} {k : Cell} {c t : ATree} :
      (k, c) ∈ t.children.toList → Occurs n c → Occurs n t

theorem tree_forest_ind (P : ATree → Prop) (F : AForest → Prop)
    (hmk : ∀ n v s sur d c, F c → P (.mk n v s sur d c))
    (hnil : F .nil)
    (hcons : ∀ k t rest, P t → F rest → F (.cons k t rest)) :
    (∀ t, P t) ∧ (∀ f, F f) :=
  ⟨fun t => ATree.rec hmk hnil hcons t, fun f => AForest.rec hmk hnil hcons f⟩

theorem calcForest_fst_isEmpty (sf : String) (c : AForest) :
    (calcForest sf c).1.isEmpty = c.isEmpty := by
  cases c <;> simp [calcForest, AForest.isEmpty]

theorem scores_ne_nil (sf : String) (d : List Row) (hd : d ≠ [])
    (hall : ∀ r ∈ d, ∃ q : ℚ, alookup r sf = some (Cell.qnum q)) :
    d.filterMap (fun r => (alookup r sf).map cellQ) ≠ [] := by
  cases d with
  | nil => exact absurd rfl hd
  | cons r rest =>
      obtain ⟨q, hq⟩ := hall r (by simp)
      simp [List.filterMap_cons, hq]

/-- On a fresh tree the value returned by calculate_node_score is the score
stored in the updated node, and the collected child returns are exactly the
non-null scores of the updated children. -/
theorem calc_ret_eq_score (sf : String) :
    (∀ t, freshT t = true → (calcNode sf t).2 = (calcNode sf t).1.score) ∧
    (∀ f, freshF f = true →
      (calcForest sf f).2
        = (calcForest sf f).1.toList.filterMap (fun kc => kc.2.score)) := by
  apply tree_forest_ind
    (fun t => freshT t = true → (calcNode sf t).2 = (calcNode sf t).1.score)
    (fun f => freshF f = true →
      (calcForest sf f).2
        = (calcForest sf f).1.toList.filterMap (fun kc => kc.2.score))
  · intro n v s sur d c _ hf
    simp only [freshT, Bool.and_eq_true, Option.isNone_iff_eq_none] at hf
    obtain ⟨hs, _⟩ := hf
    subst hs
    simp only [calcNode]
    split_ifs <;> rfl
  · intro _
    rfl
  · intro k t rest iht ihr hf
    simp only [freshF, Bool.and_eq_true] at hf
    obtain ⟨hft, hfr⟩ := hf
    simp only [calcForest, AForest.toList, List.filterMap_cons]
    rw [iht hft, ihr hfr]
    cases h : (calcNode sf t).1.score <;> simp [h]

/-- The two goodness clauses of claim C8 for a single node of the output
tree. -/
def goodNode (sf : String) (m : ATree) : Prop :=
  (m.children.isEmpty = false →
    m.children.toList.filterMap (fun kc => kc.2.score) ≠ [] →
    m.score = some (qmean (m.children.toList.filterMap (fun kc => kc.2.score)))) ∧
  (m.children.isEmpty = true → m.data ≠ [] →
    (∀ r ∈ m.data, ∃ q : ℚ, alookup r sf = some (Cell.qnum q)) →
    m.score = some (qmean (m.data.filterMap (fun r => (alookup r sf).map cellQ))))

theorem calc_good (sf : String) :
    (∀ t, freshT t = true → ∀ m, Occurs m (calcNode sf t).1 → goodNode sf m) ∧
    (∀ f, freshF f = true → ∀ k c, (k, c) ∈ (calcForest sf f).1.toList →
      ∀ m, Occurs m c → goodNode sf m) := by
  apply tree_forest_ind
    (fun t => freshT t = true → ∀ m, Occurs m (calcNode sf t).1 → goodNode sf m)
    (fun f => freshF f = true → ∀ k c, (k, c) ∈ (calcForest sf f).1.toList →
      ∀ m, Occurs m c → goodNode sf m)
  · intro n v s sur d c ihc hf m hm
    simp only [freshT, Bool.and_eq_true, Option.isNone_iff_eq_none] at hf
    obtain ⟨hs, hfc⟩ := hf
    subst hs
    by_cases hc : c.isEmpty = true
    · have hcnil : c = .nil := by
        cases c
        · rfl
        · simp [AForest.isEmpty] at hc
      subst hcnil
      by_cases hd : d.isEmpty = true
      · have hdnil : d = [] := by
          cases d
          · rfl
          · simp at hd
        subst hdnil
        have hm2 : m = .mk n v none sur [] .nil := by
          cases hm with
          | refl => simp [calcNode, AForest.isEmpty]
          | step hmem _ =>
              simp only [calcNode, AForest.isEmpty, List.isEmpty_nil, if_true] at hmem
              simp [ATree.children, AForest.toList] at hmem
        subst hm2
        constructor
        · intro habs
          simp [ATree.children, AForest.isEmpty] at habs
        · intro _ habs
          simp [ATree.data] at habs
      · have hm2 : m = (calcNode sf (.mk n v none sur d .nil)).1 := by
          cases hm with
          | refl => rfl
          | step hmem _ =>
              simp only [calcNode, AForest.isEmpty, List.isEmpty_nil] at hmem
              split_ifs at hmem <;>
                simp [ATree.children, AForest.toList] at hmem
        subst hm2
        simp only [calcNode, AForest.isEmpty, if_true]
        rw [if_neg (by simpa using hd)]
        by_cases hsc : (d.filterMap (fun r => (alookup r sf).map cellQ)).isEmpty = true
        · rw [if_pos hsc]
          constructor
          · intro habs
            simp [ATree.children, AForest.isEmpty] at habs
          · intro _ hdne hall
            exact absurd hsc (by
              have := scores_ne_nil sf d hdne hall
              cases hh : d.filterMap (fun r => (alookup r sf).map cellQ)
              · exact absurd hh this
              · simp [hh])
        · rw [if_neg hsc]
          constructor
          · intro habs
            simp [ATree.children, AForest.isEmpty] at habs
          · intro _ _ _
            rfl
    · have hcE : c.isEmpty = false := by
        cases hcb : c.isEmpty
        · rfl
        · exact absurd hcb hc
      have hrets := (calc_ret_eq_score sf).2 c hfc
      cases hm with
      | refl =>
          simp only [calcNode]
          rw [if_neg (by simp [hcE])]
          by_cases hrs : (calcForest sf c).2.isEmpty = true
          · rw [if_pos hrs]
            have hrsnil : (calcForest sf c).2 = [] := by
              cases hh : (calcForest sf c).2
              · rfl
              · rw [hh] at hrs; simp at hrs
            constructor
            · intro _ hne
              exact absurd (hrets.symm.trans hrsnil) hne
            · intro habs
              rw [show (ATree.mk n v none sur d (calcForest sf c).1).children
                    = (calcForest sf c).1 from rfl, calcForest_fst_isEmpty] at habs
              rw [habs] at hcE
              cases hcE
          · rw [if_neg hrs]
            constructor
            · intro _ _
              rw [show (ATree.mk n v
                    (some (qmean (calcForest sf c).2)) sur d (calcForest sf c).1).score
                  = some (qmean (calcForest sf c).2) from rfl]
              rw [show (ATree.mk n v
                    (some (qmean (calcForest sf c).2)) sur d (calcForest sf c).1).children
                  = (calcForest sf c).1 from rfl]
              rw [hrets]
            · intro habs
              rw [show (ATree.mk n v
                    (some (qmean (calcForest sf c).2)) sur d (calcForest sf c).1).children
                  = (calcForest sf c).1 from rfl, calcForest_fst_isEmpty] at habs
              rw [habs] at hcE
              cases hcE
      | step hmem hocc =>
          have hmem2 : ∃ k2 c2, (k2, c2) ∈ (calcForest sf c).1.toList ∧ Occurs m c2 := by
            revert hmem
            simp only [calcNode]
            rw [if_neg (by simp [hcE])]
            by_cases hrs : (calcForest sf c).2.isEmpty = true
            · rw [if_pos hrs]
              intro hmem
              exact ⟨_, _, hmem, hocc⟩
            · rw [if_neg hrs]
              intro hmem
              exact ⟨_, _, hmem, hocc⟩
          obtain ⟨k2, c2, hmem2, hocc2⟩ := hmem2
          exact ihc hfc k2 c2 hmem2 m hocc2
  · intro _ k c hmem
    simp [calcForest, AForest.toList] at hmem
  · intro k t rest iht ihr hf k2 c2 hmem m hocc
    simp only [freshF, Bool.and_eq_true] at hf
    obtain ⟨hft, hfr⟩ := hf
    simp only [calcForest, AForest.toList, List.mem_cons] at hmem
    cases hmem with
    | inl h =>
        have hc2 : c2 = (calcNode sf t).1 := congrArg Prod.snd h
        rw [hc2] at hocc
        exact iht hft m hocc
    | inr h =>
        exact ihr hfr k2 c2 h m hocc

/-- Claim C8: after calculate_tree_scores on a freshly built tree, every node
of the output with children whose (non-null) child scores are nonempty has
score equal to the unweighted arithmetic mean of its children's scores, and
every childless node holding raw data whose rows all carry the score field
has score equal to the arithmetic mean of that field over its rows. -/
theorem tree_scores_are_child_means (sf : String) (t : ATree)
    (hf : freshT t = true) (m : ATree)
    (hm : Occurs m (calculate_tree_scores sf t)) :
    (m.children.isEmpty = false →
      m.children.toList.filterMap (fun kc => kc.2.score) ≠ [] →
      m.score = some (qmean (m.children.toList.filterMap (fun kc => kc.2.score)))) ∧
    (m.children.isEmpty = true → m.data ≠ [] →
      (∀ r ∈ m.data, ∃ q : ℚ, alookup r sf = some (Cell.qnum q)) →
      m.score = some (qmean (m.data.filterMap (fun r => (alookup r sf).map cellQ)))) :=
  (calc_good sf).1 t hf m hm

/-- A two-leaf aggregation tree: a root with children a and b, the leaves
holding one raw record each with risk_score 80 and 60. -/
def demoTree : ATree :=
  .mk (some "root") none none none []
    (.cons (Cell.str "a")
      (.mk (some "省份") (some (Cell.str "a")) none none
        [[("risk_score", Cell.qnum 80)]] .nil)
      (.cons (Cell.str "b")
        (.mk (some "省份") (some (Cell.str "b")) none none
          [[("risk_score", Cell.qnum 60)]] .nil)
        .nil))

theorem tree_scores_are_child_means_witness :
    freshT demoTree = true ∧
      (calculate_tree_scores "risk_score" demoTree).score = some 70 := by
  constructor
  · rfl
  · have h := (tree_scores_are_child_means "risk_score" demoTree rfl
      (calculate_tree_scores "risk_score" demoTree) (Occurs.refl _)).1
      (by simp [calculate_tree_scores, calcNode, calcForest, demoTree,
        AForest.toList, AForest.isEmpty, ATree.children, ATree.score, alookup, cellQ])
      (by simp [calculate_tree_scores, calcNode, calcForest, demoTree,
        AForest.toList, AForest.isEmpty, ATree.children, ATree.score, alookup, cellQ])
    rw [h]
    simp only [calculate_tree_scores, calcNode, calcForest, demoTree, AForest.toList,
      AForest.isEmpty, ATree.children, ATree.score, ATree.data, alookup, cellQ, qmean,
      List.filterMap_cons, List.filterMap_nil]
    norm_num [List.sum_cons, List.sum_nil, cellQ]

end TreeCalc

namespace RiskApp

/-- The five query fields of lookup_risk_score. -/
inductive QField where
  | province : QField
  | industry1 : QField
  | industry2 : QField
  | disability : QField
  | policyType : QField
deriving DecidableEq

/-- A record of the scored dataset, carrying the five queryable columns
(province, industry level 1 and 2, disability tier, new or renewed policy)
and the integer risk score as a rational. -/
structure Rec9 where
  province : String
  industry1 : String
  industry2 : String
  disability : String
  policyType : String
  risk_score : ℚ
deriving DecidableEq

/-- The value of a record at a query field. -/
def fieldVal (r : Rec9) : QField → String
  | .province => r.province
  | .industry1 => r.industry1
  | .industry2 => r.industry2
  | .disability => r.disability
  | .policyType => r.policyType

/-- A query dictionary: each of the five keys present or absent. -/
structure Query9 where
  province : Option String
  industry1 : Option String
  industry2 : Option String
  disability : Option String
  policyType : Option String
deriving DecidableEq

/-- Lines 148 to 151 of risk_score_application.py: query_conditions, one
condition per key of the query dictionary that is a dataset column, in the
insertion order of process_data (province, industry1, industry2, disability,
policy type). -/
def condList (q : Query9) : List (QField × String) :=
  ([(QField.province, q.province), (QField.industry1, q.industry1),
    (QField.industry2, q.industry2), (QField.disability, q.disability),
    (QField.policyType, q.policyType)]).filterMap
    (fun kv => kv.2.map (fun v => (kv.1, v)))

/-- A record satisfies the conjunction of a condition list. -/
def matchesAll (conds : List (QField × String)) (r : Rec9) : Bool :=
  conds.all (fun kv => decide (fieldVal r kv.1 = kv.2))

/-- The result dictionary of lookup_risk_score: the match type label, the
matched records and the mean risk score. -/
structure MatchRes where
  matchType : String
  records : List Rec9
  avgScore : ℚ
deriving DecidableEq

/-- The arithmetic mean of the risk_score column of the matched records. -/
def meanScore (l : List Rec9) : ℚ := (l.map Rec9.risk_score).sum / l.length

/-- Lines 228 to 241: the industry level 1 only tier. -/
def tier5 (data : List Rec9) (q : Query9) : Option MatchRes :=
  match q.industry1 with
  | some v =>
      if (data.filter (fun r => decide (r.industry1 = v))).isEmpty then none
      else some ⟨"行业匹配", data.filter (fun r => decide (r.industry1 = v)),
        meanScore (data.filter (fun r => decide (r.industry1 = v)))⟩
  | none => none

/-- Lines 213 to 226: the province only tier, falling through to the industry
level 1 tier. -/
def tier4 (data : List Rec9) (q : Query9) : Option MatchRes :=
  match q.province with
  | some v =>
      if (data.filter (fun r => decide (r.province = v))).isEmpty then tier5 data q
      else some ⟨"省份匹配", data.filter (fun r => decide (r.province = v)),
        meanScore (data.filter (fun r => decide (r.province = v)))⟩
  | none => tier5 data q

/-- Lines 193 to 197: basic_conditions over province and policy type, only
for the keys present in the query. -/
def basicConds (q : Query9) : List (QField × String) :=
  ([(QField.province, q.province), (QField.policyType, q.policyType)]).filterMap
    (fun kv => kv.2.map (fun v => (kv.1, v)))

/-- Lines 199 to 211: the province and policy type tier, falling through to
the later tiers. -/
def tier3 (data : List Rec9) (q : Query9) : Option MatchRes :=
  if (basicConds q).isEmpty then tier4 data q
  else
    if (data.filter (matchesAll (basicConds q))).isEmpty then tier4 data q
    else some ⟨"基本匹配", data.filter (matchesAll (basicConds q)),
      meanScore (data.filter (matchesAll (basicConds q)))⟩

/-- lookup_risk_score, lines 126 to 248: no valid condition gives None
immediately; otherwise the exact tier, then, when both industry keys were
supplied, the same conjunction with the industry2 condition dropped, then the
province and policy tier, the province tier and the industry1 tier, the first
nonempty one winning. -/
def lookup_risk_score (data : List Rec9) (q : Query9) : Option MatchRes :=
  if (condList q).isEmpty then none
  else
    if (data.filter (matchesAll (condList q))).isEmpty then
      if q.industry2.isSome && q.industry1.isSome then
        if (data.filter (matchesAll ((condList q).filter
            (fun kv => decide (kv.1 ≠ QField.industry2))))).isEmpty then
          tier3 data q
        else some ⟨"行业1级匹配",
          data.filter (matchesAll ((condList q).filter
            (fun kv => decide (kv.1 ≠ QField.industry2)))),
          meanScore (data.filter (matchesAll ((condList q).filter
            (fun kv => decide (kv.1 ≠ QField.industry2)))))⟩
      else tier3 data q
    else some ⟨"精确匹配", data.filter (matchesAll (condList q)),
      meanScore (data.filter (matchesAll (condList q)))⟩

/-- Specification tier 1, EXACT: the conjunction of all supplied fields. -/
def specTier1 (data : List Rec9) (q : Query9) : Option MatchRes :=
  if (data.filter (matchesAll (condList q))).isEmpty then none
  else some ⟨"精确匹配", data.filter (matchesAll (condList q)),
    meanScore (data.filter (matchesAll (condList q)))⟩

/-- Specification tier 2, DROP_SUBDIM: the same conjunction with the
industry2 condition removed, applicable only when both industry keys were
supplied. -/
def specTier2 (data : List Rec9) (q : Query9) : Option MatchRes :=
  if q.industry2.isSome && q.industry1.isSome then
    if (data.filter (matchesAll ((condList q).filter
        (fun kv => decide (kv.1 ≠ QField.industry2))))).isEmpty then none
    else some ⟨"行业1级匹配",
      data.filter (matchesAll ((condList q).filter
        (fun kv => decide (kv.1 ≠ QField.industry2)))),
      meanScore (data.filter (matchesAll ((condList q).filter
        (fun kv => decide (kv.1 ≠ QField.industry2)))))⟩
  else none

/-- Specification tier 3, PROVINCE_AND_POLICY: the conjunction of the
province and policy type fields present in the query. -/
def specTier3 (data : List Rec9) (q : Query9) : Option MatchRes :=
  if (basicConds q).isEmpty then none
  else
    if (data.filter (matchesAll (basicConds q))).isEmpty then none
    else some ⟨"基本匹配", data.filter (matchesAll (basicConds q)),
      meanScore (data.filter (matchesAll (basicConds q)))⟩

/-- Specification tier 4, PROVINCE_ONLY. -/
def specTier4 (data : List Rec9) (q : Query9) : Option MatchRes :=
  match q.province with
  | some v =>
      if (data.filter (fun r => decide (r.province = v))).isEmpty then none
      else some ⟨"省份匹配", data.filter (fun r => decide (r.province = v)),
        meanScore (data.filter (fun r => decide (r.province = v)))⟩
  | none => none

/-- Specification tier 5, INDUSTRY1_ONLY. -/
def specTier5 (data : List Rec9) (q : Query9) : Option MatchRes :=
  match q.industry1 with
  | some v =>
      if (data.filter (fun r => decide (r.industry1 = v))).isEmpty then none
      else some ⟨"行业匹配", data.filter (fun r => decide (r.industry1 = v)),
        meanScore (data.filter (fun r => decide (r.industry1 = v)))⟩
  | none => none

/-- The cascade as the specification words it: the five tiers attempted in
the fixed order EXACT, DROP_SUBDIM, PROVINCE_AND_POLICY, PROVINCE_ONLY,
INDUSTRY1_ONLY, the first tier with at least one matching record winning. -/
def specCascade (data : List Rec9) (q : Query9) : Option MatchRes :=
  List.findSome? id [specTier1 data q, specTier2 data q, specTier3 data q,
    specTier4 data q, specTier5 data q]

/-- One input item of process_data: the mandatory fields and the optional
industry level 2. -/
structure Item where
  province : String
  industry1 : String
  industry2 : Option String
  disability : String
  policyType : String

/-- Lines 362 to 368 of process_data: the query dictionary built from an
item, the industry2 key always present, defaulting to the empty string. -/
def queryOf (it : Item) : Query9 :=
  ⟨some it.province, some it.industry1, some (it.industry2.getD ""),
    some it.disability, some it.policyType⟩

/-- Lines 371 to 382 of process_data: the risk score attached to an item,
the neutral default 50 when the lookup returns None. -/
def process_score (data : List Rec9) (it : Item) : ℚ :=
  match lookup_risk_score data (queryOf it) with
  | some m => m.avgScore
  | none => 50

theorem tier4_eq (data : List Rec9) (q : Query9) :
    tier4 data q = (specTier4 data q).orElse (fun _ => specTier5 data q) := by
  unfold tier4 specTier4 tier5 specTier5
  cases q.province with
  | none => simp [Option.orElse]
  | some v =>
      by_cases h : (data.filter (fun r => decide (r.province = v))).isEmpty = true <;>
        simp [h, Option.orElse]

theorem tier3_eq (data : List Rec9) (q : Query9) :
    tier3 data q = (specTier3 data q).orElse
      (fun _ => (specTier4 data q).orElse (fun _ => specTier5 data q)) := by
  unfold tier3 specTier3
  by_cases h0 : (basicConds q).isEmpty = true
  · simp [h0, Option.orElse, tier4_eq]
  · by_cases h1 : (data.filter (matchesAll (basicConds q))).isEmpty = true <;>
      simp [h0, h1, Option.orElse, tier4_eq]

/-- Claim C9: for every scored dataset and every query with at least one
valid condition, lookup_risk_score equals the cascade that attempts the five
tiers in the fixed order EXACT (精确匹配), DROP_SUBDIM (行业1级匹配, only
when both industry keys were supplied), PROVINCE_AND_POLICY (基本匹配),
PROVINCE_ONLY (省份匹配), INDUSTRY1_ONLY (行业匹配) and returns the first
tier with at least one matching record, together with the matched records and
the mean of their risk scores; in particular a nonempty exact tier always
wins, and when the lookup returns None, process_data substitutes the neutral
default score 50. -/
theorem lookup_risk_score_cascade_order :
    (∀ (data : List Rec9) (q : Query9), condList q ≠ [] →
      lookup_risk_score data q = specCascade data q) ∧
    (∀ (data : List Rec9) (q : Query9),
      (data.filter (matchesAll (condList q))).isEmpty = false → condList q ≠ [] →
      lookup_risk_score data q
        = some ⟨"精确匹配", data.filter (matchesAll (condList q)),
            meanScore (data.filter (matchesAll (condList q)))⟩) ∧
    (∀ (data : List Rec9) (it : Item),
      lookup_risk_score data (queryOf it) = none → process_score data it = 50) := by
  have hmain : ∀ (data : List Rec9) (q : Query9), condList q ≠ [] →
      lookup_risk_score data q = specCascade data q := by
    intro data q hq
    have hne : (condList q).isEmpty = false := by
      cases h : condList q
      · exact absurd h hq
      · rfl
    unfold lookup_risk_score specCascade
    rw [hne]
    simp only [Bool.false_eq_true, if_false, List.findSome?, id]
    unfold specTier1 specTier2
    by_cases h1 : (data.filter (matchesAll (condList q))).isEmpty = true
    · rw [if_pos h1, if_pos h1]
      by_cases h2 : (q.industry2.isSome && q.industry1.isSome) = true
      · rw [if_pos h2, if_pos h2]
        by_cases h3 : (data.filter (matchesAll ((condList q).filter
            (fun kv => decide (kv.1 ≠ QField.industry2))))).isEmpty = true
        · rw [if_pos h3, if_pos h3]
          rw [tier3_eq]
          cases hs3 : specTier3 data q <;> cases hs4 : specTier4 data q <;>
            cases hs5 : specTier5 data q <;>
            simp [Option.orElse, hs3, hs4, hs5]
        · rw [if_neg h3, if_neg h3]
      · rw [if_neg h2, if_neg h2]
        rw [tier3_eq]
        cases hs3 : specTier3 data q <;> cases hs4 : specTier4 data q <;>
          cases hs5 : specTier5 data q <;>
          simp [Option.orElse, hs3, hs4, hs5]
    · rw [if_neg h1, if_neg h1]
  refine ⟨hmain, ?_, ?_⟩
  · intro data q hne hq
    unfold lookup_risk_score
    have hcl : (condList q).isEmpty = false := by
      cases h : condList q
      · exact absurd h hq
      · rfl
    rw [hcl, hne]
    simp
  · intro data it h
    unfold process_score
    rw [h]

/-- A one-record dataset and one query exercising the cascade theorem. -/
def demoData : List Rec9 :=
  [⟨"江苏省", "C|制造业", "C033|金属制品业", "十级伤残:10%", "新单", 80⟩]

/-- A province-only query. -/
def demoQuery : Query9 := ⟨some "江苏省", none, none, none, none⟩

/-- An item whose query matches nothing in an empty dataset. -/
def demoItem : Item := ⟨"北京市", "C|制造业", none, "十级伤残:10%", "新单"⟩

theorem lookup_risk_score_cascade_order_witness :
    lookup_risk_score demoData demoQuery = specCascade demoData demoQuery ∧
      process_score [] demoItem = 50 :=
  ⟨lookup_risk_score_cascade_order.1 demoData demoQuery (by decide),
    lookup_risk_score_cascade_order.2.2 [] demoItem (by decide)⟩

end RiskApp

end RiskModel
